import Mathlib

/-!
Verification of the chunked CSV analysis and transformation engine in
`server/controllers/csv_controller.py` (functions `analyze_csv_quality_chunked`,
`preprocess_csv_task_chunked`, `apply_preprocessing_options`, with helpers
`safe_convert_value` and the module constant `CHUNK_SIZE`).

Modelling conventions:
* A parsed CSV file is a header (list of column names) plus a list of rows.
  For the analyzer, every cell is read as text (`dtype=str`), so a cell is
  `Option α` with `none` standing for a missing value (pandas `NaN`) and the
  cell payload abstracted over a type `α` with decidable equality — the
  analyzer only ever tests cells for equality and missingness.
* For the transform engine, cells carry the values pandas type inference
  produces: `Value.na` (NaN), `Value.num q` (int64/float64, collapsed to an
  exact rational), `Value.str s` (object/text).  Boolean and datetime
  inference are outside the modelled scope.
* Python integer arithmetic is `Nat`/`Int`; the float expression
  `int(d * (total/len))` is modelled as exact-arithmetic truncation, which on
  nonnegative operands is natural-number division.
* Fallible I/O (reading the input file) is an explicit `Except` input; the
  top-level `try/except` of the transform task is the `match` on it.
* Redis `setex` progress writes are logged as a list of `ProgressWrite`
  records; the file written by `to_csv` is returned as an `Option DataFrame`.
* Rows are assumed rectangular (pandas pads short rows with `NaN` at parse
  time; cell access `List.getD j` with a missing default mirrors this) and
  header names are assumed distinct (pandas mangles duplicate headers at
  read time).
-/

namespace Cleanser

/-- `CHUNK_SIZE = 10000` — module constant: "Process 10000 rows at a time". -/
def CHUNK_SIZE : Nat := 10000

/-- Fuel-indexed worker for `chunksOf`.  The fuel is only a structural
termination device; it is always instantiated with the list length, which is
an upper bound on the number of iterations whenever the batch size is
positive. -/
def chunksOfGo (n : Nat) : Nat → List α → List (List α)
  | _, [] => []
  | 0, l => [l]
  | fuel + 1, l => if n = 0 then [l] else l.take n :: chunksOfGo n fuel (l.drop n)

/-- The chunked reader: `pd.read_csv(..., chunksize=n)` yields the data rows
in order as batches of at most `n` rows (no batch for an empty row list).
pandas requires `n ≥ 1`; the `n = 0` case is a total-function artifact. -/
def chunksOf (n : Nat) (l : List α) : List (List α) :=
  chunksOfGo n l.length l

/-- One step of first-occurrence-order collection: append a value unless it
was already collected (`if val_safe not in unique_trackers[col]: ... append`). -/
def insertIfNew [DecidableEq α] (t : List α) (v : α) : List α :=
  if v ∈ t then t else t ++ [v]

/-- First-occurrence-order deduplication.  This is the common semantics of
pandas `Series.unique()`, `DataFrame.duplicated()` (keep='first') and
`DataFrame.drop_duplicates()` (keep-first, comparing all columns): the
distinct elements in order of first appearance. -/
def pdUnique [DecidableEq α] (l : List α) : List α :=
  l.foldl insertIfNew []

/-- A parsed CSV file for the analyzer: header row and data rows, all cells
read as text (`dtype=str`); `none` is a missing cell. -/
structure CsvFile (α : Type) where
  columns : List String
  rows : List (List (Option α))

/-- Cell of row `r` in column position `j`; out-of-range reads are missing
(pandas pads short rows with `NaN`). -/
def cellAt (j : Nat) (r : List (Option α)) : Option α :=
  r.getD j none

/-- `chunk[col].isnull().sum()` for one batch of one column. -/
def missingInChunk (c : List (Option α)) : Nat :=
  (c.filter Option.isNone).length

/-- Accumulated missing count of one column over all batches
(`missing_counts[col] += int(chunk[col].isnull().sum())`). -/
def colMissing (chunks : List (List (Option α))) : Nat :=
  (chunks.map missingInChunk).sum

/-- `chunk[col].dropna()` — the non-missing cells of a batch column. -/
def nonMissing (c : List (Option α)) : List α :=
  c.filterMap id

/-- Unique-value tracking for one batch:
`for val in chunk[col].dropna().unique()[:100]: if val not in tracker: append`.
`safe_convert_value` on a non-null text cell is the identity.  Note the
`[:100]` slice: at most 100 distinct values of each batch are considered. -/
def trackStep [DecidableEq α] (t : List α) (c : List (Option α)) : List α :=
  ((pdUnique (nonMissing c)).take 100).foldl insertIfNew t

/-- Per-batch guard `if i < 3 and len(unique_trackers[col]) < 1000`: the
batch contributes only when the tracker is still below 1000. -/
def trackFold [DecidableEq α] (t : List α) (c : List (Option α)) : List α :=
  if t.length < 1000 then trackStep t c else t

/-- The unique-value tracker of one column after the full scan: only the
first 3 batches are inspected. -/
def colTracker [DecidableEq α] (chunks : List (List (Option α))) : List α :=
  (chunks.take 3).foldl trackFold []

/-- Sample collection for one batch: `samples = chunk[col].dropna().head(3)`
appended while fewer than 3 samples are held. -/
def sampleStep (s : List α) (c : List (Option α)) : List α :=
  if s.length < 3 then (s ++ (nonMissing c).take 3).take 3 else s

/-- Sample values of one column after the full scan (at most 3 overall, not
per batch). -/
def colSamples (chunks : List (List (Option α))) : List α :=
  chunks.foldl sampleStep []

/-- `sample_df.duplicated().sum()` — rows of the sample that repeat an
earlier row (keep-first marking): sample size minus distinct-row count. -/
def dupCount [DecidableEq α] (sample : List (List (Option α))) : Nat :=
  sample.length - (pdUnique sample).length

/-- The duplicate-row estimate
`int(sample_df.duplicated().sum() * (total_rows / max(len(sample_df), 1)))`,
guarded by `try/except: duplicate_estimate = 0`.  The `Except` argument is
the outcome of re-reading the sample; any failure yields 0.  Exact
truncation of the nonnegative quotient is natural-number division. -/
def duplicateEstimate [DecidableEq α]
    (sampleRead : Except String (List (List (Option α)))) (totalRows : Nat) : Nat :=
  match sampleRead with
  | .error _ => 0
  | .ok sample => dupCount sample * totalRows / max sample.length 1

/-- Python `round(x, 2)` on an exact value: round half to even at the second
decimal. -/
def roundHalfEven (q : ℚ) : ℤ :=
  if q - ⌊q⌋ < 1 / 2 then ⌊q⌋
  else if q - ⌊q⌋ > 1 / 2 then ⌊q⌋ + 1
  else if ⌊q⌋ % 2 = 0 then ⌊q⌋ else ⌊q⌋ + 1

/-- `round(·, 2)`. -/
def round2 (q : ℚ) : ℚ :=
  (roundHalfEven (q * 100) : ℚ) / 100

/-- `str(first_chunk[col].dtype)` for the schema probe: the probe reads every
cell as text (`dtype=str`), and a pandas column of text cells always carries
dtype `object`, whatever the cells are.  (The surrounding `try/except`
fallback is also `'object'`.) -/
def pandasStrDtype (_cells : List (Option α)) : String :=
  "object"

/-- `unique_values` report field: `int(n) if n < 1000 else '1000+'`. -/
inductive UniqueValues where
  | num (n : Nat) : UniqueValues
  | sentinel : UniqueValues
deriving DecidableEq

/-- Per-column entry of `column_analysis`. -/
structure ColumnProfile (α : Type) where
  dtype : String
  missing_count : Nat
  missing_percentage : ℚ
  unique_values : UniqueValues
  sample_values : List α

/-- The quality report assembled by `analyze_csv_quality_chunked`.
`memory_usage` (the input file's size on disk) is I/O metadata with no
counterpart in the parsed data and is not modelled. -/
structure QualityReport (α : Type) where
  total_rows : Nat
  total_columns : Nat
  total_cells : Nat
  missing_cells : Nat
  missing_percentage : ℚ
  column_analysis : List (String × ColumnProfile α)
  duplicate_rows : Nat
  is_large_file : Bool

/-- `analyze_csv_quality_chunked(file_path, sample_size=10000)`, with the
batch size of the chunked reader exposed as a parameter (the source fixes it
to `CHUNK_SIZE`).  First a ≤1000-row schema probe fixes columns and dtype
labels; then a full chunked scan accumulates the exact row count, per-column
missing counts, capped unique-value trackers (first 3 batches only) and ≤3
sample values; then the duplicate estimate reads a bounded sample; finally
the report is assembled with division-by-zero guards. -/
def analyze [DecidableEq α] (chunkSize sampleSize : Nat) (f : CsvFile α) :
    QualityReport α :=
  let columns := f.columns
  let dtypes : List (String × String) :=
    columns.enum.map fun p => (p.2, pandasStrDtype ((f.rows.take 1000).map (cellAt p.1)))
  let chunks := chunksOf chunkSize f.rows
  let total_rows := (chunks.map List.length).sum
  let colChunks : Nat → List (List (Option α)) := fun j => chunks.map fun c => c.map (cellAt j)
  let missing : Nat → Nat := fun j => colMissing (colChunks j)
  let total_columns := columns.length
  let total_cells := total_rows * total_columns
  let total_missing := ((List.range total_columns).map missing).sum
  { total_rows := total_rows
    total_columns := total_columns
    total_cells := total_cells
    missing_cells := total_missing
    missing_percentage :=
      if total_cells > 0 then round2 ((total_missing : ℚ) / (total_cells : ℚ) * 100) else 0
    column_analysis :=
      columns.enum.map fun p =>
        (p.2,
          { dtype := (dtypes.lookup p.2).getD "object"
            missing_count := missing p.1
            missing_percentage :=
              if total_rows > 0 then round2 ((missing p.1 : ℚ) / (total_rows : ℚ) * 100) else 0
            unique_values :=
              if (colTracker (colChunks p.1)).length < 1000 then
                .num (colTracker (colChunks p.1)).length
              else .sentinel
            sample_values := (colSamples (colChunks p.1)).take 3 })
    duplicate_rows :=
      duplicateEstimate (.ok (f.rows.take (min sampleSize total_rows))) total_rows
    is_large_file := total_rows > 50000 }

/-- The number of distinct non-missing values actually present in column `j`
of a file (specification-side notion used to state the unique-cap claim). -/
def distinctCount [DecidableEq α] (f : CsvFile α) (j : Nat) : Nat :=
  (pdUnique (nonMissing (f.rows.map (cellAt j)))).length

/-- A transform-side cell after pandas type inference: missing, numeric
(int64/float64 collapsed to an exact rational) or text. -/
inductive Value where
  | na : Value
  | num (q : ℚ) : Value
  | str (s : String) : Value
deriving DecidableEq

/-- A data row of the transform engine. -/
abbrev Row := List Value

/-- A pandas DataFrame: named columns over typed rows. -/
structure DataFrame where
  columns : List String
  rows : List Row

/-- `pd.isna` on one cell. -/
def Value.isNa : Value → Bool
  | .na => true
  | _ => false

/-- Whether a cell is numeric. -/
def Value.isNum : Value → Bool
  | .num _ => true
  | _ => false

/-- Column `j` of a row-major table. -/
def colOf (rows : List Row) (j : Nat) : List Value :=
  rows.map fun r => r.getD j .na

/-- Column dtype test: a parsed column is of a numeric dtype iff every cell
is numeric or missing (an all-missing column is float64, hence numeric);
otherwise its dtype is `object`.  This is what
`df.select_dtypes(include=['number'])` keys on. -/
def isNumericCol (col : List Value) : Bool :=
  col.all fun v => v.isNa || v.isNum

/-- The numeric cells of a column. -/
def numsOf (col : List Value) : List ℚ :=
  col.filterMap fun v => match v with | .num q => some q | _ => none

/-- Insertion into a sorted list (ascending). -/
def insertSorted (q : ℚ) : List ℚ → List ℚ
  | [] => [q]
  | a :: t => if q ≤ a then q :: a :: t else a :: insertSorted q t

/-- Insertion sort, ascending. -/
def sortRat (l : List ℚ) : List ℚ :=
  l.foldr insertSorted []

/-- `Series.mean()` skipping NaN; NaN when no numeric value exists (filling
with it is then a no-op, as in pandas). -/
def meanOf (col : List Value) : Value :=
  let ns := numsOf col
  if ns.isEmpty then .na else .num (ns.sum / (ns.length : ℚ))

/-- `Series.median()` skipping NaN: middle element of the sorted values, or
the average of the two middle elements for an even count. -/
def medianOf (col : List Value) : Value :=
  let ns := sortRat (numsOf col)
  if ns.length = 0 then .na
  else if ns.length % 2 = 1 then .num (ns.getD (ns.length / 2) 0)
  else .num ((ns.getD (ns.length / 2 - 1) 0 + ns.getD (ns.length / 2) 0) / 2)

/-- Tie order used by `Series.mode()` (pandas returns the modes sorted
ascending and the code takes `mode_value[0]`): numbers sort before text,
numbers by value, text lexicographically.  `na` never occurs among the
candidates. -/
def valueLe : Value → Value → Bool
  | .na, _ => true
  | _, .na => false
  | .num p, .num q => p ≤ q
  | .num _, .str _ => true
  | .str _, .num _ => false
  | .str s, .str t => s ≤ t

/-- `df[col].mode()[0]` when it exists: the most frequent non-missing value,
smallest under `valueLe` among ties; `none` when the column has no
non-missing value (then the code leaves the column alone). -/
def modeOf (col : List Value) : Option Value :=
  let cands := pdUnique (col.filter fun v => !v.isNa)
  cands.foldl
    (fun acc v =>
      match acc with
      | none => some v
      | some b =>
          if col.count v > col.count b then some v
          else if col.count v = col.count b && valueLe v b then some v
          else some b)
    none

/-- `fill_mean` / `fill_median`: for each numeric-dtype column, replace
missing cells by that table's own column statistic. -/
def fillWith (rows : List Row) (stat : List Value → Value) : List Row :=
  rows.map fun r => r.mapIdx fun j v =>
    if isNumericCol (colOf rows j) && v.isNa then stat (colOf rows j) else v

/-- `fill_mode`: for every column with a missing value, fill missing cells
with the column's mode; leave them missing when no mode exists. -/
def fillModeRows (rows : List Row) : List Row :=
  rows.map fun r => r.mapIdx fun j v =>
    if v.isNa then (modeOf (colOf rows j)).getD v else v

/-- Python `str.strip()` (whitespace at both ends) on a character list. -/
def pyStripChars (cs : List Char) : List Char :=
  ((cs.dropWhile Char.isWhitespace).reverse.dropWhile Char.isWhitespace).reverse

/-- `str(cell)` as used by `astype(str)`: NaN prints as `"nan"`; a numeric
cell in an object column is unreachable for frames read from CSV and is
given its rational print form. -/
def Value.pyStr : Value → String
  | .na => "nan"
  | .str s => s
  | .num q => toString q

/-- `trim_whitespace`: on every object-dtype column,
`df[col].astype(str).str.strip()` — note `astype(str)` first turns missing
cells into the literal string `"nan"`. -/
def trimObject (rows : List Row) : List Row :=
  rows.map fun r => r.mapIdx fun j v =>
    if isNumericCol (colOf rows j) then v
    else .str (String.mk (pyStripChars v.pyStr.toList))

/-- Digit-string value. -/
def digitsVal (cs : List Char) : Nat :=
  cs.foldl (fun n c => n * 10 + (c.toNat - '0'.toNat)) 0

/-- Unsigned decimal literal `digits[.digits]` (at least one digit overall),
as an exact rational. -/
def parseDec? (cs : List Char) : Option ℚ :=
  let ip := cs.takeWhile Char.isDigit
  let rest := cs.dropWhile Char.isDigit
  match rest with
  | [] => if ip.isEmpty then none else some (digitsVal ip : ℚ)
  | '.' :: fp =>
      if fp.all Char.isDigit && !(ip.isEmpty && fp.isEmpty) then
        some ((digitsVal ip : ℚ) + (digitsVal fp : ℚ) / (10 : ℚ) ^ fp.length)
      else none
  | _ => none

/-- The numeric lexical class accepted by `pd.to_numeric` on a text cell:
optional surrounding whitespace, optional sign, decimal literal, optional
exponent.  (Special spellings such as `inf`/`nan` are outside the modelled
lexical class.) -/
def parseNum? (s : String) : Option ℚ :=
  let cs := pyStripChars s.toList
  let signAndRest : ℚ × List Char :=
    match cs with
    | '+' :: t => (1, t)
    | '-' :: t => (-1, t)
    | t => (1, t)
  let sign := signAndRest.1
  let body := signAndRest.2
  let mant := body.takeWhile fun c => !(c == 'e' || c == 'E')
  let expPart := body.dropWhile fun c => !(c == 'e' || c == 'E')
  match expPart with
  | [] => (parseDec? mant).map fun m => sign * m
  | _ :: ex =>
      let esignAndDigits : Bool × List Char :=
        match ex with
        | '+' :: t => (true, t)
        | '-' :: t => (false, t)
        | t => (true, t)
      let ed := esignAndDigits.2
      if ed.isEmpty || !(ed.all Char.isDigit) then none
      else
        (parseDec? mant).map fun m =>
          if esignAndDigits.1 then sign * m * (10 : ℚ) ^ digitsVal ed
          else sign * m / (10 : ℚ) ^ digitsVal ed

/-- `pd.to_numeric` on one cell: NaN and numbers pass through, text must be
a numeric literal. -/
def cellToNum? : Value → Option Value
  | .na => some .na
  | .num q => some (.num q)
  | .str s => (parseNum? s).map .num

/-- `convert_types`: per column, coerce every cell to numeric; a column with
any non-coercible cell is left untouched (no partial coercion). -/
def convertRows (rows : List Row) : List Row :=
  rows.map fun r => r.mapIdx fun j v =>
    if (colOf rows j).all fun c => (cellToNum? c).isSome then (cellToNum? v).getD v
    else v

/-- The recognized cleaning options (`options` dict of the request):
`handle_missing` is the raw option string (`options.get('handle_missing')`,
absent key = `none`), the rest are booleans. -/
structure TransformOptions where
  handle_missing : Option String := none
  trim_whitespace : Bool := false
  convert_types : Bool := false
  standardize_columns : Bool := false
  remove_duplicates : Bool := false

/-- `apply_preprocessing_options(df, options)` — the per-cell pipeline
applied to one batch (streaming mode) or to the whole table (whole-dataset
mode), in source order: handle_missing, trim_whitespace, convert_types.
The column list is never changed. -/
def applyPreprocessingOptions (df : DataFrame) (opts : TransformOptions) : DataFrame :=
  let rows1 :=
    if opts.handle_missing = some "drop" then df.rows.filter fun r => !(r.any Value.isNa)
    else if opts.handle_missing = some "fill_mean" then fillWith df.rows meanOf
    else if opts.handle_missing = some "fill_median" then fillWith df.rows medianOf
    else if opts.handle_missing = some "fill_mode" then fillModeRows df.rows
    else df.rows
  let rows2 := if opts.trim_whitespace then trimObject rows1 else rows1
  let rows3 := if opts.convert_types then convertRows rows2 else rows2
  { columns := df.columns, rows := rows3 }

/-- Column-name standardization: `col.strip().lower().replace(' ', '_')`.
The single-character `replace` is a per-character substitution. -/
def standardizeName (s : String) : String :=
  String.mk (((pyStripChars s.toList).map Char.toLower).map fun c =>
    if c = ' ' then '_' else c)

/-- Python `str.replace(pat, repl)` for a nonempty pattern: replace all
leftmost non-overlapping occurrences. -/
def replaceAll (pat repl : List Char) : List Char → List Char
  | [] => []
  | a :: rest =>
      if pat.isEmpty then a :: rest
      else if pat.isPrefixOf (a :: rest) then
        repl ++ replaceAll pat repl ((a :: rest).drop pat.length)
      else a :: replaceAll pat repl rest
termination_by s => s.length
decreasing_by
  · rename_i hne _
    have hp : 0 < pat.length :=
      List.length_pos.mpr (by simpa [List.isEmpty_iff] using hne)
    simp only [List.length_drop, List.length_cons]
    omega
  · simp

/-- `file_path.replace('.csv', '_processed.csv')`. -/
def outputPathOf (path : String) : String :=
  String.mk (replaceAll ".csv".toList "_processed.csv".toList path.toList)

/-- The Redis progress key `f"progress:{file_path}"`. -/
def progressKey (path : String) : String :=
  "progress:" ++ path

/-- One `redis_conn.setex(key, 300, json.dumps({'rows_processed': n}))`
call. -/
structure ProgressWrite where
  key : String
  ttlSeconds : Nat
  rows_processed : Nat
deriving DecidableEq

/-- The dict returned by `preprocess_csv_task_chunked`; the two success
shapes and the error shape use different key sets, absent keys are `none`. -/
structure TransformResult where
  status : String
  output_path : Option String := none
  rows_processed : Option Nat := none
  rows_removed : Option Nat := none
  columns : Option (List String) := none
  error : Option String := none

/-- A full transform run: terminal result, the output file (as written by
`to_csv`, `none` when no write happened) and the sequence of progress
writes. -/
structure TransformOutcome where
  result : TransformResult
  outputFile : Option DataFrame
  progressLog : List ProgressWrite

/-- The streaming loop over batches: rename columns (already done at the
frame level via `cols`), apply the per-cell options, append to the output,
bump the running row count and overwrite the progress record (TTL 300 s)
after every batch. -/
def streamLoop (opts : TransformOptions) (cols : List String) (path : String) :
    List (List Row) → Nat → List Row × Nat × List ProgressWrite
  | [], total => ([], total, [])
  | c :: cs, total =>
      let c' := applyPreprocessingOptions ⟨cols, c⟩ opts
      let t := total + c'.rows.length
      let rest := streamLoop opts cols path cs t
      (c'.rows ++ rest.1, rest.2.1, ⟨progressKey path, 300, t⟩ :: rest.2.2)

/-- `preprocess_csv_task_chunked(file_path, options)`.  The whole body is
wrapped in `try/except`, modelled by the match on the fallible parsed input:
any failure becomes a normal `status='error'` result.  Whole-dataset mode
(`remove_duplicates`) loads everything, dedups keep-first, applies the
remaining options and writes once; streaming mode processes `CHUNK_SIZE`-row
batches, writing a progress record after each.  Note the standardized column
names are computed before the mode split but applied only in streaming
mode. -/
def preprocessTask (path : String) (input : Except String DataFrame)
    (opts : TransformOptions) : TransformOutcome :=
  match input with
  | .error e => ⟨{ status := "error", error := some e }, none, []⟩
  | .ok df =>
      let output_path := outputPathOf path
      let cols := if opts.standardize_columns then df.columns.map standardizeName
                  else df.columns
      if opts.remove_duplicates then
        let original := df.rows.length
        let deduped := pdUnique df.rows
        let total := deduped.length
        let df2 := applyPreprocessingOptions ⟨df.columns, deduped⟩ opts
        ⟨{ status := "success"
           output_path := some output_path
           rows_processed := some total
           rows_removed := some (original - total)
           columns := some df2.columns }, some df2, []⟩
      else
        let chunks := chunksOf CHUNK_SIZE df.rows
        let run := streamLoop opts cols path chunks 0
        ⟨{ status := "success"
           output_path := some output_path
           rows_processed := some run.2.1
           columns := some cols },
         if chunks.isEmpty then none else some ⟨cols, run.1⟩, run.2.2⟩

/-! ### Helper lemmas -/

theorem chunksOfGo_nil (n fuel : Nat) : chunksOfGo n fuel ([] : List α) = [] := by
  cases fuel <;> rfl

theorem chunksOf_nil (n : Nat) : chunksOf n ([] : List α) = [] := rfl

theorem sum_map_length_chunksOfGo (n : Nat) :
    ∀ (fuel : Nat) (l : List α), l.length ≤ fuel →
      ((chunksOfGo n fuel l).map List.length).sum = l.length := by
  intro fuel
  induction fuel with
  | zero =>
      intro l hl
      have : l = [] := List.eq_nil_of_length_eq_zero (Nat.le_zero.mp hl)
      subst this; rfl
  | succ fuel ih =>
      intro l hl
      cases l with
      | nil => rfl
      | cons a t =>
          by_cases hn : n = 0
          · subst hn; simp [chunksOfGo]
          · have hstep : chunksOfGo n (fuel + 1) (a :: t) =
                (a :: t).take n :: chunksOfGo n fuel ((a :: t).drop n) := by
              simp [chunksOfGo, hn]
            rw [hstep]
            have hdrop : ((a :: t).drop n).length ≤ fuel := by
              simp only [List.length_drop, List.length_cons]
              simp only [List.length_cons] at hl
              omega
            simp only [List.map_cons, List.sum_cons, ih _ hdrop,
              List.length_take, List.length_drop, List.length_cons]
            omega

theorem sum_map_length_chunksOf (n : Nat) (l : List α) :
    ((chunksOf n l).map List.length).sum = l.length :=
  sum_map_length_chunksOfGo n l.length l le_rfl

theorem chunksOf_ne_nil {l : List α} (h : l ≠ []) (n : Nat) : chunksOf n l ≠ [] := by
  cases l with
  | nil => exact absurd rfl h
  | cons a t =>
      by_cases hn : n = 0
      · simp [chunksOf, chunksOfGo, hn]
      · simp [chunksOf, chunksOfGo, hn]

theorem chunksOf_single {l : List α} (n : Nat) (h : l ≠ []) (hn : n ≠ 0)
    (hlen : l.length ≤ n) : chunksOf n l = [l] := by
  cases l with
  | nil => exact absurd rfl h
  | cons a t =>
      have h1 : (a :: t).take n = a :: t := List.take_of_length_le hlen
      have h2 : (a :: t).drop n = [] := List.drop_eq_nil_of_le hlen
      simp [chunksOf, chunksOfGo, hn, h1, h2, chunksOfGo_nil]

theorem foldl_insertIfNew_length_le [DecidableEq α] :
    ∀ (l : List α) (t : List α), ((l.foldl insertIfNew t).length ≤ t.length + l.length) := by
  intro l
  induction l with
  | nil => intro t; simp
  | cons a l ih =>
      intro t
      simp only [List.foldl_cons]
      refine le_trans (ih (insertIfNew t a)) ?_
      by_cases h : a ∈ t
      · simp only [insertIfNew, if_pos h, List.length_cons]
        omega
      · simp only [insertIfNew, if_neg h, List.length_append, List.length_cons,
          List.length_nil]
        omega

theorem foldl_insertIfNew_of_disjoint [DecidableEq α] :
    ∀ (l : List α) (t : List α), (∀ a ∈ l, a ∉ t) → l.Nodup →
      l.foldl insertIfNew t = t ++ l := by
  intro l
  induction l with
  | nil => intro t _ _; simp
  | cons a l ih =>
      intro t hdisj hnd
      have ha : a ∉ t := hdisj a (List.mem_cons_self a l)
      have hstep : insertIfNew t a = t ++ [a] := by simp [insertIfNew, ha]
      simp only [List.foldl_cons, hstep]
      rw [ih (t ++ [a])]
      · simp
      · intro b hb
        simp only [List.mem_append, List.mem_singleton]
        rintro (hbt | rfl)
        · exact hdisj b (List.mem_cons_of_mem a hb) hbt
        · exact (List.nodup_cons.mp hnd).1 hb
      · exact (List.nodup_cons.mp hnd).2

theorem pdUnique_eq_self_of_nodup [DecidableEq α] {l : List α} (h : l.Nodup) :
    pdUnique l = l := by
  have := foldl_insertIfNew_of_disjoint l [] (by simp) h
  simpa [pdUnique] using this

theorem trackStep_length_le [DecidableEq α] (t : List α) (c : List (Option α)) :
    (trackStep t c).length ≤ t.length + 100 := by
  refine le_trans (foldl_insertIfNew_length_le _ t) ?_
  have : ((pdUnique (nonMissing c)).take 100).length ≤ 100 := by
    simp [List.length_take]
  omega

theorem foldl_trackFold_length_le [DecidableEq α] :
    ∀ (cs : List (List (Option α))) (t : List α),
      ((cs.foldl trackFold t).length ≤ t.length + 100 * cs.length) := by
  intro cs
  induction cs with
  | nil => intro t; simp
  | cons c cs ih =>
      intro t
      simp only [List.foldl_cons]
      refine le_trans (ih (trackFold t c)) ?_
      have : (trackFold t c).length ≤ t.length + 100 := by
        by_cases h : t.length < 1000
        · simpa [trackFold, h] using trackStep_length_le t c
        · simp [trackFold, h]
      simp only [List.length_cons]
      omega

theorem colTracker_length_le [DecidableEq α] (chunks : List (List (Option α))) :
    (colTracker chunks).length ≤ 300 := by
  refine le_trans (foldl_trackFold_length_le (chunks.take 3) []) ?_
  have : (chunks.take 3).length ≤ 3 := by simp [List.length_take]
  simp only [List.length_nil]
  omega

theorem enum_map_fst_apply {β : Type} (l : List α) (g : Nat → β) :
    l.enum.map (fun p => g p.1) = (List.range l.length).map g := by
  calc l.enum.map (fun p => g p.1) = (l.enum.map Prod.fst).map g := by
        rw [List.map_map]; rfl
    _ = (List.range l.length).map g := by rw [List.enum_map_fst]

theorem enum_map_snd_apply {β : Type} (l : List α) (g : α → β) :
    l.enum.map (fun p => g p.2) = l.map g := by
  calc l.enum.map (fun p => g p.2) = (l.enum.map Prod.snd).map g := by
        rw [List.map_map]; rfl
    _ = l.map g := by rw [List.enum_map_snd]

theorem lookup_getD_const (c : String) :
    ∀ (l : List (String × String)), (∀ p ∈ l, p.2 = c) →
      ∀ (a : String), ((l.lookup a).getD c) = c := by
  intro l
  induction l with
  | nil => intro _ a; rfl
  | cons p t ih =>
      intro h a
      simp only [List.lookup]
      cases hb : (a == p.1) with
      | true => simpa using h p (List.mem_cons_self p t)
      | false => exact ih (fun q hq => h q (List.mem_cons_of_mem p hq)) a

theorem sum_take_mono (l : List Nat) {i j : Nat} (h : i ≤ j) :
    (l.take i).sum ≤ (l.take j).sum := by
  have h1 : l.take i = (l.take j).take i := by
    rw [List.take_take, Nat.min_eq_left h]
  have h2 : (l.take j).take i ++ (l.take j).drop i = l.take j :=
    List.take_append_drop i (l.take j)
  calc (l.take i).sum = ((l.take j).take i).sum := by rw [h1]
    _ ≤ ((l.take j).take i).sum + ((l.take j).drop i).sum := Nat.le_add_right _ _
    _ = (l.take j).sum := by rw [← List.sum_append, h2]

theorem streamLoop_log (opts : TransformOptions) (cols : List String) (path : String) :
    ∀ (chunks : List (List Row)) (total : Nat),
      (streamLoop opts cols path chunks total).2.2 =
        (List.range chunks.length).map fun k =>
          ⟨progressKey path, 300,
            total + ((chunks.map fun c =>
              (applyPreprocessingOptions ⟨cols, c⟩ opts).rows.length).take (k + 1)).sum⟩ := by
  intro chunks
  induction chunks with
  | nil => intro total; rfl
  | cons c cs ih =>
      intro total
      simp only [streamLoop, ih, List.length_cons, List.range_succ_eq_map,
        List.map_cons, List.map_map]
      refine congrArg₂ List.cons ?_ ?_
      · simp
      · refine List.map_congr_left fun k _ => ?_
        simp only [Function.comp, List.take_succ_cons, List.sum_cons, Nat.add_assoc]

/-! ### Claim theorems -/

/-- C2: for every parseable file, `analyze(F).total_rows` is the exact number
of data rows of the file, whatever batch size (and sample size) the chunked
scan uses internally; in particular any two batch sizes agree. -/
theorem C2_total_rows_exact [DecidableEq α] (f : CsvFile α) (b₁ s₁ b₂ s₂ : Nat) :
    (analyze b₁ s₁ f).total_rows = f.rows.length ∧
    (analyze b₁ s₁ f).total_rows = (analyze b₂ s₂ f).total_rows := by
  have h1 : (analyze b₁ s₁ f).total_rows = f.rows.length := by
    simp [analyze, sum_map_length_chunksOf]
  have h2 : (analyze b₂ s₂ f).total_rows = f.rows.length := by
    simp [analyze, sum_map_length_chunksOf]
  exact ⟨h1, h1.trans h2.symm⟩

/-- C3: the per-column `missing_count` fields of the returned report sum
exactly to the report's `missing_cells` field, for every file and every
batch/sample size. -/
theorem C3_missing_sum [DecidableEq α] (chunkSize sampleSize : Nat) (f : CsvFile α) :
    (((analyze chunkSize sampleSize f).column_analysis.map fun e => e.2.missing_count).sum) =
      (analyze chunkSize sampleSize f).missing_cells := by
  simp only [analyze, List.map_map]
  exact congrArg List.sum (enum_map_fst_apply f.columns
    (fun j => colMissing ((chunksOf chunkSize f.rows).map
      fun c : List (List (Option α)) => c.map (cellAt j))))

/-- C10: every column entry of every successful analysis reports the dtype
label `"object"` — the schema probe reads all cells as text, so the detected
dtype can never distinguish column types. -/
theorem C10_dtype_object [DecidableEq α] (chunkSize sampleSize : Nat) (f : CsvFile α) :
    (analyze chunkSize sampleSize f).column_analysis.Forall
      fun e => e.2.dtype = "object" := by
  rw [List.forall_iff_forall_mem]
  intro e he
  simp only [analyze, List.mem_map] at he
  obtain ⟨p, hp, rfl⟩ := he
  refine lookup_getD_const "object" _ ?_ p.2
  intro q hq
  simp only [List.mem_map] at hq
  obtain ⟨r, _, rfl⟩ := hq
  rfl

/-- C7: the duplicate_rows field is exactly the truncated extrapolation
`sample_duplicates * total_rows / sample_size` computed on the ≤
`min(sampleSize, total_rows)`-row leading sample; a failed sample read
yields 0; and the estimate never exceeds total_rows (and is a natural
number, hence ≥ 0). -/
theorem C7_duplicate_estimate [DecidableEq α] (chunkSize sampleSize : Nat) (f : CsvFile α) :
    (analyze chunkSize sampleSize f).duplicate_rows =
      duplicateEstimate
        (.ok (f.rows.take (min sampleSize (analyze chunkSize sampleSize f).total_rows)))
        (analyze chunkSize sampleSize f).total_rows ∧
    (f.rows.take (min sampleSize (analyze chunkSize sampleSize f).total_rows)).length ≤
      min sampleSize (analyze chunkSize sampleSize f).total_rows ∧
    (∀ (msg : String) (total : Nat),
      duplicateEstimate (α := α) (.error msg) total = 0) ∧
    (∀ (sampleRead : Except String (List (List (Option α)))) (total : Nat),
      duplicateEstimate sampleRead total ≤ total) := by
  refine ⟨by simp [analyze], ?_, fun _ _ => rfl, ?_⟩
  · exact List.length_take_le _ _
  · intro sampleRead total
    cases sampleRead with
    | error _ => exact Nat.zero_le _
    | ok s =>
        show dupCount s * total / max s.length 1 ≤ total
        have h1 : dupCount s ≤ max s.length 1 :=
          le_trans (Nat.sub_le _ _) (le_max_left _ _)
        have h2 : dupCount s * total ≤ max s.length 1 * total :=
          Nat.mul_le_mul_right total h1
        calc dupCount s * total / max s.length 1
            ≤ max s.length 1 * total / max s.length 1 := Nat.div_le_div_right h2
          _ = total := Nat.mul_div_cancel_left total (lt_max_of_lt_right Nat.one_pos)

theorem lookup_object_enum (cols : List String) (a : String) :
    (((cols.enum.map fun p => ((p.2 : String), ("object" : String))).lookup a).getD
      "object") = "object" := by
  refine lookup_getD_const "object" _ ?_ a
  intro q hq
  simp only [List.mem_map] at hq
  obtain ⟨r, _, rfl⟩ := hq
  rfl

/-- C8: a file with a header but zero data rows yields a valid report (not a
fatal failure): every column is still listed, all counts — total_rows,
total_cells, missing_cells, duplicate_rows, every per-column missing_count —
are zero and every percentage field is 0.0, with no division-by-zero
fault. -/
theorem C8_empty_input [DecidableEq α] (cols : List String) (chunkSize sampleSize : Nat) :
    (analyze chunkSize sampleSize (⟨cols, []⟩ : CsvFile α)).total_rows = 0 ∧
    (analyze chunkSize sampleSize (⟨cols, []⟩ : CsvFile α)).total_cells = 0 ∧
    (analyze chunkSize sampleSize (⟨cols, []⟩ : CsvFile α)).missing_cells = 0 ∧
    (analyze chunkSize sampleSize (⟨cols, []⟩ : CsvFile α)).duplicate_rows = 0 ∧
    (analyze chunkSize sampleSize (⟨cols, []⟩ : CsvFile α)).missing_percentage = 0 ∧
    (analyze chunkSize sampleSize (⟨cols, []⟩ : CsvFile α)).column_analysis =
      cols.map fun c =>
        (c, { dtype := "object", missing_count := 0, missing_percentage := 0,
              unique_values := .num 0, sample_values := [] }) := by
  have hchunks : chunksOf chunkSize ([] : List (List (Option α))) = [] := chunksOf_nil _
  refine ⟨?_, ?_, ?_, ?_, ?_, ?_⟩
  · simp [analyze, hchunks]
  · simp [analyze, hchunks]
  · simp [analyze, hchunks, colMissing]
  · simp [analyze, hchunks, duplicateEstimate, dupCount]
  · simp [analyze, hchunks, colMissing]
  · simp only [analyze, hchunks, List.map_nil, List.take_nil, colMissing,
      colTracker, colSamples, List.foldl_nil, List.sum_nil, List.length_nil,
      Nat.mul_zero, Nat.zero_mul, gt_iff_lt, Nat.lt_irrefl, if_false,
      pandasStrDtype]
    calc (cols.enum.map fun p =>
            ((p.2 : String),
              ({ dtype := (((cols.enum.map fun p => (p.2, "object")).lookup p.2).getD "object")
                 missing_count := 0
                 missing_percentage := 0
                 unique_values := .num 0
                 sample_values := [] } : ColumnProfile α)))
        = cols.enum.map fun p =>
            ((p.2 : String),
              ({ dtype := "object", missing_count := 0, missing_percentage := 0,
                 unique_values := .num 0, sample_values := [] } : ColumnProfile α)) := by
          refine List.map_congr_left fun p _ => ?_
          rw [lookup_object_enum cols p.2]
      _ = cols.map fun c =>
            (c, { dtype := "object", missing_count := 0, missing_percentage := 0,
                  unique_values := .num 0, sample_values := [] }) :=
          enum_map_snd_apply cols (fun c =>
            (c, ({ dtype := "object", missing_count := 0, missing_percentage := 0,
                   unique_values := .num 0, sample_values := [] } : ColumnProfile α)))

/-- C1 amended claim: unique-value collection looks only at the first 3
batches and, because of the `unique_vals[:100]` slice, considers at most 100
distinct values per batch, so each tracker holds at most 300 values; the
reported `unique_values` is therefore always an exact count ≤ 300 and the
`'1000+'` sentinel (or any number ≥ 1000) is never reported. -/
theorem C1_unique_cap [DecidableEq α] (chunkSize sampleSize : Nat) (f : CsvFile α) :
    (analyze chunkSize sampleSize f).column_analysis.Forall
      fun e => ∃ n, n ≤ 300 ∧ e.2.unique_values = UniqueValues.num n := by
  rw [List.forall_iff_forall_mem]
  intro e he
  simp only [analyze, List.mem_map] at he
  obtain ⟨p, hp, rfl⟩ := he
  have hle : (colTracker ((chunksOf chunkSize f.rows).map
      fun c => c.map (cellAt p.1))).length ≤ 300 := colTracker_length_le _
  refine ⟨_, hle, ?_⟩
  simp only []
  rw [if_pos (by omega)]

/-- The explicit witness file for the C1 counterexample: a single column
whose 2000 rows hold 2000 pairwise-distinct non-missing values. -/
def bigFile : CsvFile Nat :=
  ⟨["c"], (List.range 2000).map fun n => [some n]⟩

set_option maxRecDepth 10000 in
theorem bigFile_column : bigFile.rows.map (cellAt 0) = (List.range 2000).map some := by
  show ((List.range 2000).map fun n => [some n]).map (cellAt 0) =
    (List.range 2000).map some
  rw [List.map_map]
  exact List.map_congr_left fun n _ => rfl

theorem nonMissing_map_some (l : List α) : nonMissing (l.map some) = l := by
  induction l with
  | nil => rfl
  | cons a t ih =>
      show nonMissing (some a :: t.map some) = a :: t
      simp only [nonMissing, List.filterMap_cons] at ih ⊢
      rw [show (id (some a) : Option α) = some a from rfl]
      exact congrArg (a :: ·) ih

theorem colTracker_singleton [DecidableEq α] (c : List (Option α)) :
    colTracker [c] = trackStep [] c := by
  simp [colTracker, trackFold]

theorem trackStep_nil [DecidableEq α] (c : List (Option α)) :
    trackStep [] c = pdUnique ((pdUnique (nonMissing c)).take 100) := rfl

set_option maxRecDepth 10000 in
/-- C1 counterexample: on `bigFile` — whose only column really has 2000
distinct non-missing values — the default analysis reports
`unique_values = 100` (an exact-looking number), not the `'1000+'` sentinel
the claim requires. -/
theorem C1_counterexample :
    distinctCount bigFile 0 = 2000 ∧
    ((analyze 10000 10000 bigFile).column_analysis.map fun e => e.2.unique_values) =
      [UniqueValues.num 100] := by
  have hrows : bigFile.rows ≠ [] := by simp [bigFile]
  have hlen : bigFile.rows.length = 2000 := by simp [bigFile]
  have hchunks : chunksOf 10000 bigFile.rows = [bigFile.rows] :=
    chunksOf_single 10000 hrows (by omega) (by omega)
  have hmin : (100 : Nat) ⊓ 2000 = 100 := by omega
  have htracker : colTracker [(List.range 2000).map some] = List.range 100 := by
    rw [colTracker_singleton, trackStep_nil, nonMissing_map_some,
      pdUnique_eq_self_of_nodup (List.nodup_range 2000), List.take_range, hmin]
    exact pdUnique_eq_self_of_nodup (List.nodup_range 100)
  constructor
  · rw [distinctCount, bigFile_column, nonMissing_map_some,
      pdUnique_eq_self_of_nodup (List.nodup_range 2000), List.length_range]
  · simp only [analyze, hchunks]
    rw [show bigFile.columns = ["c"] from rfl]
    rw [show (["c"] : List String).enum = [(0, "c")] from rfl]
    simp only [List.map_cons, List.map_nil, bigFile_column, htracker,
      List.length_range]
    rw [if_pos (by omega)]

/-- C4: the transform task is a total function into inspectable result
objects: its status is always 'success' or 'error'; any failure of the
fallible input read is caught and returned as a status='error' result
carrying the failure message, and every successful run returns
status='success' — no exception ever escapes to the caller. -/
theorem C4_transform_total (path : String) (input : Except String DataFrame)
    (opts : TransformOptions) :
    ((preprocessTask path input opts).result.status = "success" ∨
      (preprocessTask path input opts).result.status = "error") ∧
    (match input with
     | .error e =>
         (preprocessTask path input opts).result.status = "error" ∧
         (preprocessTask path input opts).result.error = some e
     | .ok _ => (preprocessTask path input opts).result.status = "success") := by
  cases input with
  | error e => exact ⟨Or.inr rfl, rfl, rfl⟩
  | ok df =>
      by_cases h : opts.remove_duplicates
      · simp [preprocessTask, h]
      · simp [preprocessTask, h]

/-- C5: with remove_duplicates=true the transform loads the whole table,
drops exact duplicate rows keep-first comparing all columns, and reports
rows_processed = post-dedup count and rows_removed = original − post-dedup
(the remaining options are applied only after the counts are fixed). -/
theorem C5_dedup_counts (path : String) (df : DataFrame) (opts : TransformOptions)
    (h : opts.remove_duplicates = true) :
    (preprocessTask path (.ok df) opts).result.status = "success" ∧
    (preprocessTask path (.ok df) opts).result.rows_processed =
      some (pdUnique df.rows).length ∧
    (preprocessTask path (.ok df) opts).result.rows_removed =
      some (df.rows.length - (pdUnique df.rows).length) ∧
    (preprocessTask path (.ok df) opts).outputFile =
      some (applyPreprocessingOptions ⟨df.columns, pdUnique df.rows⟩ opts) := by
  simp [preprocessTask, h]

/-- C5 witness: the spec scenario — 5 data rows of which two are exact
duplicates — reports rows_processed = 4 and rows_removed = 1. -/
theorem C5_dedup_counts_witness :
    ({ remove_duplicates := true } : TransformOptions).remove_duplicates = true ∧
    (preprocessTask "in.csv"
        (.ok ⟨["x"], [[.str "a"], [.str "b"], [.str "a"], [.str "c"], [.str "d"]]⟩)
        { remove_duplicates := true }).result.rows_processed = some 4 ∧
    (preprocessTask "in.csv"
        (.ok ⟨["x"], [[.str "a"], [.str "b"], [.str "a"], [.str "c"], [.str "d"]]⟩)
        { remove_duplicates := true }).result.rows_removed = some 1 := by
  have h := C5_dedup_counts "in.csv"
    ⟨["x"], [[.str "a"], [.str "b"], [.str "a"], [.str "c"], [.str "d"]]⟩
    { remove_duplicates := true } rfl
  refine ⟨rfl, ?_, ?_⟩
  · rw [h.2.1]; decide
  · rw [h.2.2.1]; decide

/-- C6 counterexample: a transform run with standardize_columns=true and
remove_duplicates=true on header "First Name,Last Name" writes the output
with the ORIGINAL header — the standardized names are computed but never
applied in whole-dataset mode — even though standardization would have
produced "first_name,last_name". -/
theorem C6_counterexample :
    ((preprocessTask "in.csv"
        (.ok ⟨["First Name", "Last Name"], [[Value.str "a", Value.str "b"]]⟩)
        { standardize_columns := true, remove_duplicates := true }).outputFile.map
      DataFrame.columns) = some ["First Name", "Last Name"] ∧
    ["First Name", "Last Name"].map standardizeName = ["first_name", "last_name"] ∧
    (["First Name", "Last Name"] : List String) ≠ ["first_name", "last_name"] := by
  refine ⟨rfl, by decide, by decide⟩

/-- C6 amended claim: in streaming mode (remove_duplicates=false) a
transform with standardize_columns=true, on a file with at least one data
row, writes the output whose header is the input header trimmed, lowercased
and with spaces replaced by underscores, applied uniformly (one renamed
column list for all batches); in whole-dataset mode the renaming is not
applied. -/
theorem C6_standardize_header (path : String) (df : DataFrame)
    (opts : TransformOptions) (h : opts.remove_duplicates = false)
    (hs : opts.standardize_columns = true) (hr : df.rows ≠ []) :
    ((preprocessTask path (.ok df) opts).outputFile.map DataFrame.columns) =
      some (df.columns.map standardizeName) ∧
    (preprocessTask path (.ok df) opts).result.columns =
      some (df.columns.map standardizeName) := by
  have hne : chunksOf CHUNK_SIZE df.rows ≠ [] := chunksOf_ne_nil hr _
  constructor
  · simp [preprocessTask, h, hs, List.isEmpty_iff, hne]
  · simp [preprocessTask, h, hs]

/-- C6 witness: streaming run on header "First Name,Last Name" with
standardization produces output header "first_name,last_name". -/
theorem C6_standardize_header_witness :
    ({ standardize_columns := true } : TransformOptions).remove_duplicates = false ∧
    ({ standardize_columns := true } : TransformOptions).standardize_columns = true ∧
    (([[Value.str "a", Value.str "b"]] : List Row) ≠ []) ∧
    ((preprocessTask "in.csv"
        (.ok ⟨["First Name", "Last Name"], [[Value.str "a", Value.str "b"]]⟩)
        { standardize_columns := true }).outputFile.map DataFrame.columns) =
      some ["first_name", "last_name"] := by
  have h := (C6_standardize_header "in.csv"
    ⟨["First Name", "Last Name"], [[Value.str "a", Value.str "b"]]⟩
    { standardize_columns := true } rfl rfl (by decide)).1
  refine ⟨rfl, rfl, by decide, ?_⟩
  rw [h]; decide

/-- C9: in streaming mode, after every processed batch the transform writes
one progress entry under key "progress:" ++ path with TTL 300 seconds whose
value is the cumulative row count of the batches processed so far; hence the
written rows_processed values are monotonically non-decreasing along the
run. -/
theorem C9_progress_log (path : String) (df : DataFrame) (opts : TransformOptions)
    (h : opts.remove_duplicates = false) :
    (preprocessTask path (.ok df) opts).progressLog =
      (List.range (chunksOf CHUNK_SIZE df.rows).length).map
        (fun k => ⟨progressKey path, 300,
          (((chunksOf CHUNK_SIZE df.rows).map fun c =>
            (applyPreprocessingOptions
              ⟨if opts.standardize_columns then df.columns.map standardizeName
                else df.columns, c⟩ opts).rows.length).take (k + 1)).sum⟩) ∧
    (∀ i j wi wj, i ≤ j →
      (preprocessTask path (.ok df) opts).progressLog.get? i = some wi →
      (preprocessTask path (.ok df) opts).progressLog.get? j = some wj →
      wi.rows_processed ≤ wj.rows_processed) := by
  have hlog : (preprocessTask path (.ok df) opts).progressLog =
      (List.range (chunksOf CHUNK_SIZE df.rows).length).map
        (fun k => ⟨progressKey path, 300,
          (((chunksOf CHUNK_SIZE df.rows).map fun c =>
            (applyPreprocessingOptions
              ⟨if opts.standardize_columns then df.columns.map standardizeName
                else df.columns, c⟩ opts).rows.length).take (k + 1)).sum⟩) := by
    have := streamLoop_log opts
      (if opts.standardize_columns then df.columns.map standardizeName else df.columns)
      path (chunksOf CHUNK_SIZE df.rows) 0
    simp only [Nat.zero_add] at this
    simpa [preprocessTask, h] using this
  refine ⟨hlog, ?_⟩
  intro i j wi wj hij hi hj
  rw [hlog] at hi hj
  rw [List.get?_eq_getElem?] at hi hj
  rw [List.getElem?_map] at hi hj
  have hjlt : j < (List.range (chunksOf CHUNK_SIZE df.rows).length).length := by
    by_contra hge
    rw [List.getElem?_eq_none (by omega)] at hj
    exact Option.noConfusion hj
  have hilt : i < (List.range (chunksOf CHUNK_SIZE df.rows).length).length := by
    omega
  rw [List.getElem?_eq_getElem hilt] at hi
  rw [List.getElem?_eq_getElem hjlt] at hj
  simp only [List.getElem_range, Option.map_some', Option.some.injEq] at hi hj
  rw [← hi, ← hj]
  exact sum_take_mono _ (by omega)

/-- C9 witness: a concrete streaming run (2 rows, one batch) writes exactly
one progress entry — key "progress:job.csv", TTL 300, cumulative count 2. -/
theorem C9_progress_log_witness :
    (({} : TransformOptions)).remove_duplicates = false ∧
    (preprocessTask "job.csv"
        (.ok ⟨["x"], [[Value.str "a"], [Value.str "b"]]⟩) {}).progressLog =
      [⟨progressKey "job.csv", 300, 2⟩] := by
  have h := (C9_progress_log "job.csv"
    ⟨["x"], [[Value.str "a"], [Value.str "b"]]⟩ {} rfl).1
  refine ⟨rfl, ?_⟩
  rw [h]; decide

end Cleanser
